import Mathlib

/-!
Verification of the trail_forge_metrics employee-metrics application.

The development shallow-embeds `employee_metrics_app/github_api.py`,
`routes.py` and the data model of `models.py`.  JSON values are an
inductive type, Python exceptions are an error monad (`Except PyErr`),
HTTP traffic is an explicit environment mapping each GET attempt to an
outcome, and the database write path is explicit state passing.
-/

namespace EmployeeMetrics

/-- Python exceptions that the code under study can raise or catch. -/
inductive PyErr where
  | valueError
  | typeError
  | attributeError
deriving DecidableEq, Repr

/-- JSON values, as produced by `resp.json()`.  Numbers are modelled as
integers (all payloads of this API report integer counts). -/
inductive Json where
  | null : Json
  | bool : Bool → Json
  | num : Int → Json
  | str : String → Json
  | arr : List Json → Json
  | obj : List (String × Json) → Json
deriving Repr

mutual

/-- Structural equality test on JSON values. -/
def Json.beq : Json → Json → Bool
  | .null, .null => true
  | .bool a, .bool b => a == b
  | .num a, .num b => a == b
  | .str a, .str b => a == b
  | .arr a, .arr b => Json.beqList a b
  | .obj a, .obj b => Json.beqFields a b
  | _, _ => false

/-- Equality test on JSON arrays. -/
def Json.beqList : List Json → List Json → Bool
  | [], [] => true
  | x :: xs, y :: ys => Json.beq x y && Json.beqList xs ys
  | _, _ => false

/-- Equality test on JSON object field lists. -/
def Json.beqFields : List (String × Json) → List (String × Json) → Bool
  | [], [] => true
  | (k, v) :: xs, (l, w) :: ys => k == l && Json.beq v w && Json.beqFields xs ys
  | _, _ => false

end

/-- Python truthiness of a JSON value (`bool(x)`): `None`, `False`, `0`,
`""`, `[]` and the empty dict are falsy. -/
def Json.truthy : Json → Bool
  | .null => false
  | .bool b => b
  | .num n => n != 0
  | .str s => !s.isEmpty
  | .arr xs => !xs.isEmpty
  | .obj fs => !fs.isEmpty

/-- Python `x.get(key, default)`: defined on dicts, raises
`AttributeError` on every other value. -/
def Json.getKey : Json → String → Json → Except PyErr Json
  | .obj fs, key, dflt => .ok (((fs.find? (fun p => p.1 == key)).map Prod.snd).getD dflt)
  | _, _, _ => .error .attributeError

/-- Python iteration `for x in v`: lists yield their elements, dicts
their keys, strings their characters; other values raise `TypeError`. -/
def Json.pyIter : Json → Except PyErr (List Json)
  | .arr xs => .ok xs
  | .obj fs => .ok (fs.map (fun p => Json.str p.1))
  | .str s => .ok (s.data.map (fun c => Json.str (String.mk [c])))
  | _ => .error .typeError

/-- Python `int(x)` on a JSON value: numbers pass through, booleans
coerce to 0/1, numeric strings are parsed (`ValueError` otherwise),
`None`, lists and dicts raise `TypeError`. -/
def pyInt : Json → Except PyErr Int
  | .num n => .ok n
  | .bool b => .ok (if b then 1 else 0)
  | .str s => match s.toInt? with
    | some n => .ok n
    | none => .error .valueError
  | .null => .error .typeError
  | .arr _ => .error .typeError
  | .obj _ => .error .typeError

/-- Python `acc + x` for an integer accumulator and a JSON summand, as
used by `sum(week.get('c', 0) for week in weeks)`. -/
def pyAdd (acc : Int) : Json → Except PyErr Int
  | .num n => .ok (acc + n)
  | .bool b => .ok (acc + if b then 1 else 0)
  | _ => .error .typeError

/-- Truthiness of an optional configuration string: `None` and the
empty string are falsy. -/
def optTruthy : Option String → Bool
  | none => false
  | some s => !s.isEmpty

/-! ## HTTP layer (`github_api.py`, `_request`) -/

/-- An HTTP response as the code observes it: the status code and the
result of `resp.json()` (`none` models a body on which JSON decoding
raises `ValueError`). -/
structure HttpResponse where
  status : Nat
  jsonBody : Option Json
deriving Repr

/-- Outcome of one `requests.get` call: either a response or a raised
`requests.RequestException` (timeout, connection error). -/
inductive ReqOutcome where
  | exn : ReqOutcome
  | resp : HttpResponse → ReqOutcome
deriving Repr

/-- `resp.json()`. -/
def HttpResponse.json (r : HttpResponse) : Except PyErr Json :=
  match r.jsonBody with
  | none => .error .valueError
  | some j => .ok j

/-- Truthiness of a `requests.Response` (`resp.ok`, i.e. status < 400). -/
def HttpResponse.truthy (r : HttpResponse) : Bool :=
  r.status < 400

/-- The 202 polling loop of `_request`.  `gets n` is the outcome of the
`(n+1)`-th GET issued by this `_request` call; `retries` is the loop
counter of the source and `fuel` an upper bound on the remaining
iterations (the entry point passes 6, which the guard `retries < 5`
never exhausts).  Returns the result of `_request` together with the
list of `time.sleep` delays performed, in seconds. -/
def pollLoop (gets : Nat → ReqOutcome) :
    Nat → HttpResponse → Nat → Option HttpResponse × List Nat
  | 0, resp, _ => (if 400 ≤ resp.status then none else some resp, [])
  | fuel + 1, resp, retries =>
    if resp.status = 202 ∧ retries < 5 then
      match gets (retries + 1) with
      | .exn => (none, [2 ^ retries])
      | .resp r =>
        let p := pollLoop gets fuel r (retries + 1)
        (p.1, 2 ^ retries :: p.2)
    else
      (if 400 ≤ resp.status then none else some resp, [])

/-- `_request(url, params)`: fails closed when the token is unset,
retries on HTTP 202 with exponential backoff, maps status ≥ 400 and
network exceptions to `None`.  Returns the response (or `none`)
together with the backoff delays slept. -/
def _request (token : Option String) (gets : Nat → ReqOutcome) :
    Option HttpResponse × List Nat :=
  if !optTruthy token then (none, [])
  else
    match gets 0 with
    | .exn => (none, [])
    | .resp r => pollLoop gets 6 r 0

/-! ## Metrics aggregator (`github_api.py`) -/

/-- `fetch_contributor_stats(owner, repo)`: the decoded JSON body, or an
empty list when the request fails, the response is falsy, or the body
does not decode (`ValueError` caught). -/
def fetch_contributor_stats (token : Option String) (gets : Nat → ReqOutcome) : Json :=
  match (_request token gets).1 with
  | none => Json.arr []
  | some resp =>
    if !resp.truthy then Json.arr []
    else
      match resp.jsonBody with
      | none => Json.arr []
      | some j => j

/-- Python dict assignment `totals[login] = v` on an association list
keyed by JSON values (overwrites any existing binding). -/
def dictSet (totals : List (Json × Int)) (k : Json) (v : Int) : List (Json × Int) :=
  totals.filter (fun p => !Json.beq p.1 k) ++ [(k, v)]

/-- Python dict lookup `totals.get(k)` on the same representation. -/
def dictGet (totals : List (Json × Int)) (k : Json) : Option Int :=
  (totals.find? (fun p => Json.beq p.1 k)).map Prod.snd

/-- One iteration of the loop in `_aggregate_contributor_totals`:
`author = contributor.get('author') or {}`, `login = author.get('login')`,
skip falsy logins, and `totals[login] = sum(week.get('c', 0) for week in
contributor.get('weeks', []))`.  The inner dict `{'commits': n}` of the
source has the single key `'commits'`, so the totals map is represented
directly as login ↦ commit sum. -/
def aggregateStep (totals : List (Json × Int)) (contributor : Json) :
    Except PyErr (List (Json × Int)) := do
  let author0 ← contributor.getKey "author" Json.null
  let author := if author0.truthy then author0 else Json.obj []
  let login ← author.getKey "login" Json.null
  if login.truthy then
    let weeks ← contributor.getKey "weeks" (Json.arr [])
    let weekItems ← weeks.pyIter
    let commits_sum ← weekItems.foldlM (fun acc week => do
      let c ← week.getKey "c" (Json.num 0)
      pyAdd acc c) (0 : Int)
    pure (dictSet totals login commits_sum)
  else
    pure totals

/-- `_aggregate_contributor_totals(stats)`. -/
def _aggregate_contributor_totals (stats : Json) :
    Except PyErr (List (Json × Int)) := do
  let items ← stats.pyIter
  items.foldlM aggregateStep []

/-! ## Search-based counts (`github_api.py`) -/

/-- `" ".join(strings)`. -/
def joinSpace : List String → String
  | [] => ""
  | [s] => s
  | s :: rest => s ++ " " ++ joinSpace rest

/-- The search query string built by `_search_total_count`:
`" ".join(terms + [f"repo:.../..."])`. -/
def searchQuery (owner repo : String) (terms : List String) : String :=
  joinSpace (terms ++ ["repo:" ++ owner ++ "/" ++ repo])

/-- The HTTP environment of one snapshot update: `statsGets n` is the
outcome of the `(n+1)`-th GET against `/stats/contributors`, and
`searchGets q n` the outcome of the `(n+1)`-th GET against
`/search/issues` with query string `q`. -/
structure HttpEnv where
  statsGets : Nat → ReqOutcome
  searchGets : String → Nat → ReqOutcome

/-- `_search_total_count(owner, repo, terms)`: zero when the request
fails or the response is falsy; otherwise
`int(resp.json().get('total_count', 0))` with only `ValueError` caught
— `AttributeError` (non-dict body) and `TypeError` (e.g. a null
`total_count`) propagate to the caller. -/
def _search_total_count (token : Option String) (search : String → Nat → ReqOutcome)
    (owner repo : String) (terms : List String) : Except PyErr Int :=
  let query := searchQuery owner repo terms
  match (_request token (search query)).1 with
  | none => .ok 0
  | some resp =>
    if !resp.truthy then .ok 0
    else
      match (do
        let body ← resp.json
        let v ← body.getKey "total_count" (Json.num 0)
        pyInt v : Except PyErr Int) with
      | .ok n => .ok n
      | .error .valueError => .ok 0
      | .error e => .error e

/-- `fetch_prs_opened(owner, repo, username)`. -/
def fetch_prs_opened (token : Option String) (env : HttpEnv)
    (owner repo username : String) : Except PyErr Int :=
  _search_total_count token env.searchGets owner repo ["is:pr", "author:" ++ username]

/-- `fetch_prs_merged(owner, repo, username)`. -/
def fetch_prs_merged (token : Option String) (env : HttpEnv)
    (owner repo username : String) : Except PyErr Int :=
  _search_total_count token env.searchGets owner repo
    ["is:pr", "author:" ++ username, "is:merged"]

/-- `fetch_reviews(owner, repo, username)`. -/
def fetch_reviews (token : Option String) (env : HttpEnv)
    (owner repo username : String) : Except PyErr Int :=
  _search_total_count token env.searchGets owner repo
    ["is:pr", "reviewed-by:" ++ username]

/-! ## Data model (`models.py`) and snapshot writer (`github_api.py`) -/

/-- The `Employee` row: primary key, display name, unique GitHub login
and active flag. -/
structure Employee where
  id : Nat
  name : String
  github_username : String
  active : Bool
deriving DecidableEq, Repr

/-- The `Metric` snapshot row as constructed by
`update_metrics_for_employee` (the timestamp column, which defaults to
the capture time and plays no role in the claims, is omitted). -/
structure Metric where
  employee_id : Nat
  commits : Int
  prs_opened : Int
  prs_merged : Int
  reviews : Int
deriving DecidableEq, Repr

/-- The configuration values read by the writer (`config.py`). -/
structure AppConfig where
  GITHUB_TOKEN : Option String
  REPO_OWNER : Option String
  REPO_NAME : Option String

/-- The guard `not (owner and repo and Config.GITHUB_TOKEN)` of
`update_metrics_for_employee`, negated. -/
def configOk (cfg : AppConfig) : Bool :=
  optTruthy cfg.REPO_OWNER && optTruthy cfg.REPO_NAME && optTruthy cfg.GITHUB_TOKEN

/-- `update_metrics_for_employee(employee)`: `.ok none` models the
configuration-failure skip, `.ok (some m)` the creation and commit of
the Metric row `m`, `.error e` an uncaught Python exception. -/
def update_metrics_for_employee (cfg : AppConfig) (env : HttpEnv)
    (employee : Employee) : Except PyErr (Option Metric) :=
  if !configOk cfg then .ok none
  else
    let owner := cfg.REPO_OWNER.getD ""
    let repo := cfg.REPO_NAME.getD ""
    do
      let stats := fetch_contributor_stats cfg.GITHUB_TOKEN env.statsGets
      let totals_map ← _aggregate_contributor_totals stats
      let commits := (dictGet totals_map (Json.str employee.github_username)).getD 0
      let prs_opened ← fetch_prs_opened cfg.GITHUB_TOKEN env owner repo employee.github_username
      let prs_merged ← fetch_prs_merged cfg.GITHUB_TOKEN env owner repo employee.github_username
      let reviews ← fetch_reviews cfg.GITHUB_TOKEN env owner repo employee.github_username
      .ok (some { employee_id := employee.id, commits := commits,
                  prs_opened := prs_opened, prs_merged := prs_merged,
                  reviews := reviews })

/-- The Metric rows committed to the database by one call to
`update_metrics_for_employee`: exactly the returned record (the
`db.session.add`/`commit` pair runs only on the success path). -/
def rowsWritten (cfg : AppConfig) (env : HttpEnv) (employee : Employee) : List Metric :=
  match update_metrics_for_employee cfg env employee with
  | .ok (some m) => [m]
  | _ => []

/-- The loop of `update_metrics_for_all_employees` over the active
employees.  `envs i` is the HTTP environment seen by the `(i+1)`-th
processed employee.  Returns the value of the Python call (the list of
new records, or the exception that aborted the loop) together with the
Metric rows actually committed before any abort. -/
def batchGo (cfg : AppConfig) (envs : Nat → HttpEnv) :
    Nat → List Employee → Except PyErr (List Metric) × List Metric
  | _, [] => (.ok [], [])
  | i, emp :: rest =>
    match update_metrics_for_employee cfg (envs i) emp with
    | .error e => (.error e, [])
    | .ok none => batchGo cfg envs (i + 1) rest
    | .ok (some m) =>
      let p := batchGo cfg envs (i + 1) rest
      ((p.1.map fun l => m :: l), m :: p.2)

/-- `update_metrics_for_all_employees()`:
`Employee.query.filter_by(active=True).all()` followed by the
collection loop. -/
def update_metrics_for_all_employees (cfg : AppConfig) (envs : Nat → HttpEnv)
    (employees : List Employee) : Except PyErr (List Metric) × List Metric :=
  batchGo cfg envs 0 (employees.filter (fun e => e.active))

/-! ## Employee CRUD routes (`routes.py`) -/

/-!
Result of a POST to the add/edit/delete views: the employee table (and
for delete also the metric table) after the request, plus whether the
write was committed (`false` models the re-rendered form or 404, with
no row created or modified).
-/

/-- Python `s.strip()`: remove leading and trailing whitespace. -/
def pyStrip (s : String) : String :=
  String.mk (((s.data.dropWhile Char.isWhitespace).reverse.dropWhile
    Char.isWhitespace).reverse)

/-- `add_employee` (POST): strip the submitted fields, reject blank
name/username, reject an existing `github_username`, otherwise insert a
new row.  `freshId` is the primary key the database would assign. -/
def add_employee (store : List Employee) (freshId : Nat)
    (rawName rawUsername : String) (active : Bool) : List Employee × Bool :=
  let name := pyStrip rawName
  let username := pyStrip rawUsername
  if name.isEmpty || username.isEmpty then (store, false)
  else if store.any (fun e => e.github_username == username) then (store, false)
  else (store ++ [{ id := freshId, name := name, github_username := username,
                    active := active }], true)

/-- `edit_employee` (POST): 404 when the id is absent, strip the
submitted fields, reject blank name/username, reject a *changed*
username that already exists, otherwise update the row in place. -/
def edit_employee (store : List Employee) (employee_id : Nat)
    (rawName rawUsername : String) (active : Bool) : List Employee × Bool :=
  match store.find? (fun e => e.id == employee_id) with
  | none => (store, false)
  | some employee =>
    let name := pyStrip rawName
    let username := pyStrip rawUsername
    if name.isEmpty || username.isEmpty then (store, false)
    else if username != employee.github_username &&
        store.any (fun e => e.github_username == username) then (store, false)
    else
      (store.map (fun e =>
        if e.id == employee_id then
          { e with name := name, github_username := username, active := active }
        else e), true)

/-- `delete_employee` (POST): 404 when the id is absent, otherwise
`db.session.delete(employee)` with the `cascade='all, delete-orphan'`
declared on `Employee.metrics` in `models.py`, which also deletes every
Metric row of that employee. -/
def delete_employee (store : List Employee) (metrics : List Metric)
    (employee_id : Nat) : List Employee × List Metric × Bool :=
  if store.any (fun e => e.id == employee_id) then
    (store.filter (fun e => e.id != employee_id),
     metrics.filter (fun m => m.employee_id != employee_id), true)
  else
    (store, metrics, false)

/-! ## Well-formed contributor-stats payloads (for stating C5) -/

/-- A well-formed contributor entry: an author login and the weekly
commit counts. -/
structure ContribEntry where
  login : String
  weeks : List Int
deriving Repr

/-- The JSON encoding of a well-formed contributor entry, in the shape
documented for `/repos/.../stats/contributors`. -/
def encodeEntry (en : ContribEntry) : Json :=
  Json.obj [("author", Json.obj [("login", Json.str en.login)]),
            ("weeks", Json.arr (en.weeks.map (fun c => Json.obj [("c", Json.num c)])))]

/-- The JSON encoding of a whole contributor-stats payload. -/
def encodeStats (es : List ContribEntry) : Json :=
  Json.arr (es.map encodeEntry)

/-! ## Theorems -/

/-- The delays slept by the 202 polling loop form the sequence
`2^retries, 2^(retries+1), ...` of length at most `5 - retries`. -/
theorem pollLoop_delays (gets : Nat → ReqOutcome) :
    ∀ (fuel : Nat) (resp : HttpResponse) (retries : Nat),
    ∃ m, m ≤ 5 - retries ∧
      (pollLoop gets fuel resp retries).2 =
        (List.range m).map (fun i => 2 ^ (retries + i)) := by
  intro fuel
  induction fuel with
  | zero => exact fun resp retries => ⟨0, by omega, rfl⟩
  | succ fuel ih =>
    intro resp retries
    by_cases h : resp.status = 202 ∧ retries < 5
    · cases hg : gets (retries + 1) with
      | exn =>
        refine ⟨1, by omega, ?_⟩
        simp [pollLoop, h, hg, List.range_succ]
      | resp r =>
        obtain ⟨m, hm, hdel⟩ := ih r (retries + 1)
        refine ⟨m + 1, by omega, ?_⟩
        have hstep : (pollLoop gets (fuel + 1) resp retries).2 =
            2 ^ retries :: (pollLoop gets fuel r (retries + 1)).2 := by
          simp only [pollLoop, if_pos h, hg]
        rw [hstep, hdel, List.range_succ_eq_map, List.map_cons, List.map_map]
        refine congrArg₂ List.cons (by simp) (List.map_congr_left ?_)
        intro i _
        simp only [Function.comp_apply]
        congr 1
        omega
    · exact ⟨0, by omega, by simp [pollLoop, h]⟩

/-- C1 counterexample: when every GET returns HTTP 202, `_request`
performs exactly the five backoff sleeps 1s, 2s, 4s, 8s, 16s and then
returns the final still-202 response object — a present result, not
`None` (202 < 400, so the error branch does not fire). -/
theorem c1_counterexample :
    _request (some "t") (fun _ => ReqOutcome.resp ⟨202, some (Json.obj [])⟩) =
      (some ⟨202, some (Json.obj [])⟩, [1, 2, 4, 8, 16]) ∧
    ((_request (some "t") (fun _ => ReqOutcome.resp ⟨202, some (Json.obj [])⟩)).1).isSome
      = true :=
  ⟨rfl, rfl⟩

/-- C1 (amended): for every `_request` call whose every GET receives
HTTP 202, the wrapper retries exactly 5 times with backoff delays
`2^attempt` seconds (1s, 2s, 4s, 8s, 16s) and then gives up, returning
the last (still 202) response to the caller rather than retrying
unboundedly; moreover no call ever sleeps more than 5 times, the delays
always forming an initial segment of 1s, 2s, 4s, 8s, 16s. -/
theorem c1_retries_bounded_then_returns_last_response
    (token : Option String) (gets : Nat → ReqOutcome) (r : Nat → HttpResponse)
    (htok : optTruthy token = true)
    (hr : ∀ n, gets n = ReqOutcome.resp (r n))
    (h202 : ∀ n, (r n).status = 202) :
    _request token gets = (some (r 5), [1, 2, 4, 8, 16]) ∧
    ∀ (tok : Option String) (gs : Nat → ReqOutcome),
      ∃ m, m ≤ 5 ∧ (_request tok gs).2 = (List.range m).map (fun i => 2 ^ i) := by
  constructor
  · simp [_request, htok, pollLoop, hr, h202]
  · intro tok gs
    by_cases ht : optTruthy tok
    · cases hg : gs 0 with
      | exn => exact ⟨0, by omega, by simp [_request, ht, hg]⟩
      | resp r0 =>
        obtain ⟨m, hm, hdel⟩ := pollLoop_delays gs 6 r0 0
        refine ⟨m, by omega, ?_⟩
        simp [_request, ht, hg, hdel]
    · exact ⟨0, by omega, by simp [_request, ht]⟩

/-- C1 witness: the amended theorem applied to a concrete all-202
environment. -/
theorem c1_retries_bounded_witness :
    _request (some "token") (fun _ => ReqOutcome.resp ⟨202, none⟩) =
      (some ⟨202, none⟩, [1, 2, 4, 8, 16]) ∧
    ∀ (tok : Option String) (gs : Nat → ReqOutcome),
      ∃ m, m ≤ 5 ∧ (_request tok gs).2 = (List.range m).map (fun i => 2 ^ i) :=
  c1_retries_bounded_then_returns_last_response (some "token")
    (fun _ => ReqOutcome.resp ⟨202, none⟩) (fun _ => ⟨202, none⟩) rfl
    (fun _ => rfl) (fun _ => rfl)

/-- C2 (code bug): `_search_total_count` catches only `ValueError`, so a
search response whose body is a JSON object with a null `total_count`
raises `TypeError` in `int(None)`, and the exception propagates through
`update_metrics_for_employee` and aborts
`update_metrics_for_all_employees` — the second active employee is never
processed and no record is returned, contradicting the propagation
policy and the module's own docstring.  A non-object body
(e.g. a JSON array) likewise raises `AttributeError` in `.get`. -/
theorem c2_malformed_total_count_aborts_batch :
    update_metrics_for_all_employees ⟨some "t", some "o", some "r"⟩
        (fun _ => ⟨fun _ => ReqOutcome.exn,
          fun _ _ => ReqOutcome.resp ⟨200, some (Json.obj [("total_count", Json.null)])⟩⟩)
        [⟨1, "Alice", "alice", true⟩, ⟨2, "Bob", "bob", true⟩] =
      (.error .typeError, []) ∧
    update_metrics_for_employee ⟨some "t", some "o", some "r"⟩
        ⟨fun _ => ReqOutcome.exn,
         fun _ _ => ReqOutcome.resp ⟨200, some (Json.arr [])⟩⟩
        ⟨1, "Alice", "alice", true⟩ =
      .error .attributeError :=
  ⟨rfl, rfl⟩

/-- C3 counterexample: a search response reporting `total_count = -3`
is stored unchanged, so the created Metric row carries the negative
counters `prs_opened = prs_merged = reviews = -3` — the claim's
non-negativity does not hold for every possible HTTP response. -/
theorem c3_counterexample :
    update_metrics_for_employee ⟨some "t", some "o", some "r"⟩
        ⟨fun _ => ReqOutcome.exn,
         fun _ _ => ReqOutcome.resp ⟨200, some (Json.obj [("total_count", Json.num (-3))])⟩⟩
        ⟨1, "Alice", "alice", true⟩ =
      .ok (some ⟨1, 0, -3, -3, -3⟩) ∧ ((-3 : Int) < 0) :=
  ⟨rfl, by decide⟩

/-- C3 (amended): for every snapshot creation that the writer executes,
each of the four counters is an integer that is never absent, and when
every underlying fetch fails the snapshot is still created with all
four counters equal to zero (hence non-negative); non-negativity for
arbitrary responses is not enforced — a negative reported count is
stored as-is. -/
theorem c3_all_fetches_fail_zero_snapshot
    (cfg : AppConfig) (env : HttpEnv) (e : Employee)
    (hcfg : configOk cfg = true)
    (hstats : ∀ n, env.statsGets n = ReqOutcome.exn)
    (hsearch : ∀ q n, env.searchGets q n = ReqOutcome.exn) :
    ∃ m, update_metrics_for_employee cfg env e = .ok (some m) ∧
      m = ⟨e.id, 0, 0, 0, 0⟩ ∧
      0 ≤ m.commits ∧ 0 ≤ m.prs_opened ∧ 0 ≤ m.prs_merged ∧ 0 ≤ m.reviews := by
  have htok : optTruthy cfg.GITHUB_TOKEN = true := by
    have h := hcfg
    simp [configOk, Bool.and_eq_true] at h
    exact h.2
  have hupd : update_metrics_for_employee cfg env e = .ok (some ⟨e.id, 0, 0, 0, 0⟩) := by
    simp [update_metrics_for_employee, hcfg, fetch_contributor_stats, _request,
      htok, hstats, hsearch, _aggregate_contributor_totals, Json.pyIter,
      fetch_prs_opened, fetch_prs_merged, fetch_reviews, _search_total_count,
      dictGet]
    rfl
  exact ⟨⟨e.id, 0, 0, 0, 0⟩, hupd, rfl, by norm_num, by norm_num, by norm_num,
    by norm_num⟩

/-- Helper: when every single-employee update is skipped, the batch loop
returns the empty list and commits nothing. -/
theorem batchGo_all_skipped (cfg : AppConfig) (envs : Nat → HttpEnv)
    (hskip : ∀ env e, update_metrics_for_employee cfg env e = .ok none) :
    ∀ (l : List Employee) (i : Nat), batchGo cfg envs i l = (.ok [], []) := by
  intro l
  induction l with
  | nil => intro i; rfl
  | cons e rest ih =>
    intro i
    simp [batchGo, hskip (envs i) e, ih (i + 1)]

/-- C4: if the repository owner, the repository name or the access
token is unconfigured (unset or empty), the single-employee update is
skipped entirely — it returns an absent result and commits no Metric
row; and when the access token is absent, the batch update returns the
empty list and commits zero rows. -/
theorem c4_missing_config_skips_update
    (cfg : AppConfig) (env : HttpEnv) (e : Employee)
    (h : optTruthy cfg.REPO_OWNER = false ∨ optTruthy cfg.REPO_NAME = false ∨
         optTruthy cfg.GITHUB_TOKEN = false) :
    update_metrics_for_employee cfg env e = .ok none ∧
    rowsWritten cfg env e = [] ∧
    ∀ (envs : Nat → HttpEnv) (emps : List Employee),
      cfg.GITHUB_TOKEN = none →
      update_metrics_for_all_employees cfg envs emps = (.ok [], []) := by
  have hcfg : configOk cfg = false := by
    rcases h with h | h | h <;> simp [configOk, h]
  refine ⟨?_, ?_, ?_⟩
  · simp [update_metrics_for_employee, hcfg]
  · simp [rowsWritten, update_metrics_for_employee, hcfg]
  · intro envs emps htok
    have hskip : ∀ env' e', update_metrics_for_employee cfg env' e' = .ok none := by
      intro env' e'
      have hc : configOk cfg = false := by simp [configOk, htok, optTruthy]
      simp [update_metrics_for_employee, hc]
    simp [update_metrics_for_all_employees,
      batchGo_all_skipped cfg envs hskip (emps.filter (fun e' => e'.active)) 0]

/-- C4 witness: the theorem applied to an unset access token. -/
theorem c4_missing_config_witness :
    update_metrics_for_employee ⟨none, some "o", some "r"⟩
        ⟨fun _ => ReqOutcome.exn, fun _ _ => ReqOutcome.exn⟩ ⟨1, "A", "a", true⟩ =
      .ok none ∧
    rowsWritten ⟨none, some "o", some "r"⟩
        ⟨fun _ => ReqOutcome.exn, fun _ _ => ReqOutcome.exn⟩ ⟨1, "A", "a", true⟩ = [] ∧
    ∀ (envs : Nat → HttpEnv) (emps : List Employee),
      (⟨none, some "o", some "r"⟩ : AppConfig).GITHUB_TOKEN = none →
      update_metrics_for_all_employees ⟨none, some "o", some "r"⟩ envs emps =
        (.ok [], []) :=
  c4_missing_config_skips_update ⟨none, some "o", some "r"⟩
    ⟨fun _ => ReqOutcome.exn, fun _ _ => ReqOutcome.exn⟩ ⟨1, "A", "a", true⟩
    (Or.inr (Or.inr rfl))

/-- C3 witness: the amended theorem applied to a concrete environment
in which every GET raises a network error. -/
theorem c3_all_fetches_fail_witness :
    ∃ m, update_metrics_for_employee ⟨some "t", some "o", some "r"⟩
        ⟨fun _ => ReqOutcome.exn, fun _ _ => ReqOutcome.exn⟩ ⟨7, "A", "a", true⟩ =
        .ok (some m) ∧
      m = ⟨7, 0, 0, 0, 0⟩ ∧
      0 ≤ m.commits ∧ 0 ≤ m.prs_opened ∧ 0 ≤ m.prs_merged ∧ 0 ≤ m.reviews :=
  c3_all_fetches_fail_zero_snapshot ⟨some "t", some "o", some "r"⟩
    ⟨fun _ => ReqOutcome.exn, fun _ _ => ReqOutcome.exn⟩ ⟨7, "A", "a", true⟩
    rfl (fun _ => rfl) (fun _ _ => rfl)

/-- Helper: `Json.beq` against a string pattern holds exactly for that
string. -/
theorem beq_str_right (j : Json) (s : String) :
    Json.beq j (Json.str s) = true ↔ j = Json.str s := by
  cases j <;> simp [Json.beq]

/-- Helper: looking up a string key after a dict assignment with a
string key. -/
theorem dictGet_dictSet_str (t : List (Json × Int)) (l u : String) (v : Int) :
    dictGet (dictSet t (Json.str l) v) (Json.str u) =
      if u = l then some v else dictGet t (Json.str u) := by
  induction t with
  | nil =>
    by_cases h : u = l
    · simp [dictGet, dictSet, Json.beq, h, List.find?, beq_iff_eq]
    · have hlu : (l == u) = false := by
        rw [beq_eq_false_iff_ne]; exact fun e => h e.symm
      simp [dictGet, dictSet, Json.beq, h, List.find?, hlu]
  | cons p rest ih =>
    by_cases hd : Json.beq p.1 (Json.str l)
    · have hp : p.1 = Json.str l := (beq_str_right p.1 l).mp hd
      by_cases h : u = l
      · subst h
        simpa [dictGet, dictSet, hd] using ih
      · have hpu : Json.beq p.1 (Json.str u) = false := by
          rw [hp]; simp [Json.beq, beq_iff_eq]; exact fun e => h e.symm
        simpa [dictGet, dictSet, hd, List.find?, hpu] using ih
    · have hd' : Json.beq p.1 (Json.str l) = false := by
        cases hb : Json.beq p.1 (Json.str l) with
        | false => rfl
        | true => exact absurd hb hd
      by_cases hpu : Json.beq p.1 (Json.str u)
      · by_cases h : u = l
        · exact absurd (h ▸ (beq_str_right p.1 u).mp hpu) (by
            intro hp; exact hd (hp ▸ (by simp [Json.beq, beq_iff_eq] : Json.beq (Json.str l) (Json.str l) = true)))
        · simp [dictGet, dictSet, hd', List.find?, hpu, h]
      · have hpu' : Json.beq p.1 (Json.str u) = false := by
          cases hb : Json.beq p.1 (Json.str u) with
          | false => rfl
          | true => exact absurd hb hpu
        simpa [dictGet, dictSet, hd', List.find?, hpu'] using ih

/-- Helper: binding a successful `Except` value reduces to the
continuation. -/
theorem ok_bind {ε α β : Type} (f : α → Except ε β) (a : α) :
    (Except.ok a >>= f : Except ε β) = f a := rfl

/-- Helper: mapping over a successful `Except` value. -/
theorem map_ok {ε α β : Type} (f : α → β) (a : α) :
    (f <$> (Except.ok a : Except ε α)) = Except.ok (f a) := rfl

/-- Helper: summing the encoded weekly `c` counts yields the plain sum. -/
theorem foldWeeks_encoded (ws : List Int) :
    ∀ acc : Int,
      (ws.map (fun c => Json.obj [("c", Json.num c)])).foldlM
        (fun acc week => do
          let c ← week.getKey "c" (Json.num 0)
          pyAdd acc c) acc = .ok (acc + ws.sum) := by
  induction ws with
  | nil => intro acc; simp; rfl
  | cons c rest ih =>
    intro acc
    rw [List.map_cons, List.foldlM_cons]
    have h1 : (do
          let cc ← (Json.obj [("c", Json.num c)]).getKey "c" (Json.num 0)
          pyAdd acc cc : Except PyErr Int) = Except.ok (acc + c) := rfl
    rw [h1, ok_bind]
    simp [ih (acc + c), add_assoc]

/-- Helper: one aggregation step on a well-formed contributor entry
writes the entry's weekly commit sum under its login. -/
theorem aggregateStep_encoded (totals : List (Json × Int)) (en : ContribEntry)
    (h : en.login ≠ "") :
    aggregateStep totals (encodeEntry en) =
      .ok (dictSet totals (Json.str en.login) en.weeks.sum) := by
  have hne : en.login.isEmpty = false := by
    cases hc : en.login.isEmpty with
    | false => rfl
    | true => exact absurd ((String.isEmpty_iff en.login).mp hc) h
  have hred : aggregateStep totals (encodeEntry en) =
      if (!en.login.isEmpty) = true then
        dictSet totals (Json.str en.login) <$>
          ((en.weeks.map (fun c => Json.obj [("c", Json.num c)])).foldlM
            (fun acc week => do
              let c ← week.getKey "c" (Json.num 0)
              pyAdd acc c) 0)
      else pure totals := rfl
  rw [hred, hne, foldWeeks_encoded en.weeks 0]
  simp [map_ok]

/-- Helper: aggregating a well-formed payload is a fold of dict
assignments login ↦ weekly commit sum. -/
theorem aggregate_encoded (es : List ContribEntry)
    (h : ∀ en ∈ es, en.login ≠ "") :
    _aggregate_contributor_totals (encodeStats es) =
      .ok (es.foldl (fun t en => dictSet t (Json.str en.login) en.weeks.sum) []) := by
  suffices hgen : ∀ (es' : List ContribEntry), (∀ en ∈ es', en.login ≠ "") →
      ∀ t, (es'.map encodeEntry).foldlM aggregateStep t =
        .ok (es'.foldl (fun t en => dictSet t (Json.str en.login) en.weeks.sum) t) by
    simp [_aggregate_contributor_totals, encodeStats, Json.pyIter, ok_bind,
      hgen es h []]
  intro es'
  induction es' with
  | nil => intro _ t; rfl
  | cons en rest ih =>
    intro h' t
    have hen : en.login ≠ "" := h' en (by simp)
    simp [List.foldlM_cons, aggregateStep_encoded t en hen, ok_bind,
      ih (fun en' hm => h' en' (by simp [hm]))]

/-- Helper: looking a username up in the aggregated totals finds the
unique entry with that login (when logins are distinct). -/
theorem dictGet_foldl_encoded (u : String) :
    ∀ (es : List ContribEntry) (t : List (Json × Int)),
      (es.map (fun en => en.login)).Nodup →
      dictGet (es.foldl (fun t en => dictSet t (Json.str en.login) en.weeks.sum) t)
          (Json.str u) =
        match es.find? (fun en => en.login == u) with
        | some en => some en.weeks.sum
        | none => dictGet t (Json.str u) := by
  intro es
  induction es with
  | nil => intro t _; rfl
  | cons en rest ih =>
    intro t hnd
    rw [List.map_cons, List.nodup_cons] at hnd
    obtain ⟨hnotin, hnd'⟩ := hnd
    by_cases hb : en.login = u
    · subst hb
      have hfind : rest.find? (fun en' => en'.login == en.login) = none := by
        rw [List.find?_eq_none]
        intro x hx
        simp only [beq_iff_eq]
        intro he
        exact hnotin (he ▸ List.mem_map_of_mem (fun en' => en'.login) hx)
      rw [List.foldl_cons, ih (dictSet t (Json.str en.login) en.weeks.sum) hnd',
        hfind, List.find?_cons]
      simp [dictGet_dictSet_str]
    · have hbeq : (en.login == u) = false := by
        rw [beq_eq_false_iff_ne]; exact hb
      have hub : ¬u = en.login := fun e => hb e.symm
      rw [List.foldl_cons, ih (dictSet t (Json.str en.login) en.weeks.sum) hnd',
        List.find?_cons, hbeq]
      cases hf : rest.find? (fun en' => en'.login == u) with
      | some en' => rfl
      | none =>
        simp [dictGet_dictSet_str, hub]

/-- C5: for every well-formed contributor-stats payload (distinct,
non-empty logins) and target username, the commit total written to the
snapshot is the sum of the weekly `c` counts of the entry whose author
login equals the username, and zero when the username is absent. -/
theorem c5_commit_total_from_unique_entry
    (es : List ContribEntry) (u : String)
    (hne : ∀ en ∈ es, en.login ≠ "")
    (hnd : (es.map (fun en => en.login)).Nodup)
    (cfg : AppConfig) (env : HttpEnv) (emp : Employee)
    (hcfg : configOk cfg = true)
    (hstats : env.statsGets 0 = ReqOutcome.resp ⟨200, some (encodeStats es)⟩)
    (hsearch : ∀ q n, env.searchGets q n = ReqOutcome.exn)
    (hemp : emp.github_username = u) :
    update_metrics_for_employee cfg env emp =
      .ok (some ⟨emp.id,
        ((es.find? (fun en => en.login == u)).map (fun en => en.weeks.sum)).getD 0,
        0, 0, 0⟩) := by
  have htok : optTruthy cfg.GITHUB_TOKEN = true := by
    have h := hcfg
    simp [configOk, Bool.and_eq_true] at h
    exact h.2
  have hfetch : fetch_contributor_stats cfg.GITHUB_TOKEN env.statsGets =
      encodeStats es := by
    simp [fetch_contributor_stats, _request, htok, hstats, pollLoop,
      HttpResponse.truthy]
  have hsearch0 : ∀ terms, _search_total_count cfg.GITHUB_TOKEN env.searchGets
      (cfg.REPO_OWNER.getD "") (cfg.REPO_NAME.getD "") terms = .ok 0 := by
    intro terms
    simp [_search_total_count, _request, htok, hsearch]
  simp only [update_metrics_for_employee, hcfg, Bool.not_true, Bool.false_eq_true,
    if_false, hfetch, aggregate_encoded es hne, ok_bind, fetch_prs_opened,
    fetch_prs_merged, fetch_reviews, hsearch0, hemp,
    dictGet_foldl_encoded u es [] hnd]
  cases hf : es.find? (fun en => en.login == u) with
  | some en => rfl
  | none => rfl

/-- C5 witness: the payload of the spec's scenario — a single entry for
"alice" with weekly counts 3 and 5 — yields commit total 8 for "alice"
and 0 for the absent "bob". -/
theorem c5_commit_total_witness :
    update_metrics_for_employee ⟨some "t", some "o", some "r"⟩
        ⟨fun _ => ReqOutcome.resp ⟨200, some (encodeStats [⟨"alice", [3, 5]⟩])⟩,
         fun _ _ => ReqOutcome.exn⟩ ⟨1, "Alice", "alice", true⟩ =
      .ok (some ⟨1, 8, 0, 0, 0⟩) ∧
    update_metrics_for_employee ⟨some "t", some "o", some "r"⟩
        ⟨fun _ => ReqOutcome.resp ⟨200, some (encodeStats [⟨"alice", [3, 5]⟩])⟩,
         fun _ _ => ReqOutcome.exn⟩ ⟨2, "Bob", "bob", true⟩ =
      .ok (some ⟨2, 0, 0, 0, 0⟩) := by
  constructor
  · exact (c5_commit_total_from_unique_entry [⟨"alice", [3, 5]⟩] "alice"
      (by decide) (by simp) ⟨some "t", some "o", some "r"⟩
      ⟨fun _ => ReqOutcome.resp ⟨200, some (encodeStats [⟨"alice", [3, 5]⟩])⟩,
       fun _ _ => ReqOutcome.exn⟩ ⟨1, "Alice", "alice", true⟩
      rfl rfl (fun _ _ => rfl) rfl).trans (by rfl)
  · exact (c5_commit_total_from_unique_entry [⟨"alice", [3, 5]⟩] "bob"
      (by decide) (by simp) ⟨some "t", some "o", some "r"⟩
      ⟨fun _ => ReqOutcome.resp ⟨200, some (encodeStats [⟨"alice", [3, 5]⟩])⟩,
       fun _ _ => ReqOutcome.exn⟩ ⟨2, "Bob", "bob", true⟩
      rfl rfl (fun _ _ => rfl) rfl).trans (by rfl)

/-- Helper: the query string issued by `fetch_prs_opened`. -/
theorem searchQuery_prs_opened (o r u : String) :
    searchQuery o r ["is:pr", "author:" ++ u] =
      "is:pr author:" ++ u ++ " repo:" ++ o ++ "/" ++ r := by
  simp [searchQuery, joinSpace, String.append_assoc]
  rw [← String.append_assoc "is:pr " "author:", ← String.append_assoc " " "repo:"]
  simp [String.append_assoc]

/-- Helper: the query string issued by `fetch_prs_merged`. -/
theorem searchQuery_prs_merged (o r u : String) :
    searchQuery o r ["is:pr", "author:" ++ u, "is:merged"] =
      "is:pr author:" ++ u ++ " is:merged repo:" ++ o ++ "/" ++ r := by
  simp [searchQuery, joinSpace, String.append_assoc]
  rw [← String.append_assoc "is:pr " "author:", ← String.append_assoc " " "is:merged "]
  simp [String.append_assoc]
  rw [← String.append_assoc " is:merged " "repo:"]
  simp [String.append_assoc]

/-- Helper: the query string issued by `fetch_reviews`. -/
theorem searchQuery_reviews (o r u : String) :
    searchQuery o r ["is:pr", "reviewed-by:" ++ u] =
      "is:pr reviewed-by:" ++ u ++ " repo:" ++ o ++ "/" ++ r := by
  simp [searchQuery, joinSpace, String.append_assoc]
  rw [← String.append_assoc "is:pr " "reviewed-by:", ← String.append_assoc " " "repo:"]
  simp [String.append_assoc]

/-- C6: the three search-based counts issue exactly the queries built
from the fixed term sets combined with the repository qualifier —
"is:pr author:u" for PRs opened, plus "is:merged" for PRs merged, and
"is:pr reviewed-by:u" for reviews; the reported `total_count` of the
response is returned, and any request failure yields zero; a response
with `total_count` 12 for the PRs-opened query yields `prs_opened = 12`
in that employee's snapshot. -/
theorem c6_search_counts (owner repo username : String) (token : Option String)
    (env : HttpEnv) (n : Int)
    (htok : optTruthy token = true)
    (hresp : env.searchGets
        ("is:pr author:" ++ username ++ " repo:" ++ owner ++ "/" ++ repo) 0 =
      ReqOutcome.resp ⟨200, some (Json.obj [("total_count", Json.num n)])⟩) :
    searchQuery owner repo ["is:pr", "author:" ++ username] =
      "is:pr author:" ++ username ++ " repo:" ++ owner ++ "/" ++ repo ∧
    searchQuery owner repo ["is:pr", "author:" ++ username, "is:merged"] =
      "is:pr author:" ++ username ++ " is:merged repo:" ++ owner ++ "/" ++ repo ∧
    searchQuery owner repo ["is:pr", "reviewed-by:" ++ username] =
      "is:pr reviewed-by:" ++ username ++ " repo:" ++ owner ++ "/" ++ repo ∧
    fetch_prs_opened token env owner repo username = .ok n ∧
    (∀ (tok : Option String) (env' : HttpEnv),
      (∀ q k, env'.searchGets q k = ReqOutcome.exn) →
      fetch_prs_opened tok env' owner repo username = .ok 0 ∧
      fetch_prs_merged tok env' owner repo username = .ok 0 ∧
      fetch_reviews tok env' owner repo username = .ok 0) ∧
    update_metrics_for_employee ⟨some "t", some "o", some "r"⟩
        ⟨fun _ => ReqOutcome.exn,
         fun q _ => if q = "is:pr author:alice repo:o/r" then
            ReqOutcome.resp ⟨200, some (Json.obj [("total_count", Json.num 12)])⟩
          else ReqOutcome.exn⟩
        ⟨1, "Alice", "alice", true⟩ =
      .ok (some ⟨1, 0, 12, 0, 0⟩) := by
  refine ⟨searchQuery_prs_opened owner repo username,
    searchQuery_prs_merged owner repo username,
    searchQuery_reviews owner repo username, ?_, ?_, ?_⟩
  · simp [fetch_prs_opened, _search_total_count,
      searchQuery_prs_opened owner repo username, _request, htok, hresp, pollLoop,
      HttpResponse.truthy, HttpResponse.json, Json.getKey, pyInt, ok_bind]
  · intro tok env' hexn
    have hz : ∀ terms, _search_total_count tok env'.searchGets owner repo terms =
        .ok 0 := by
      intro terms
      by_cases ht : optTruthy tok <;>
        simp [_search_total_count, _request, ht, hexn]
    exact ⟨hz _, hz _, hz _⟩
  · rfl

/-- C6 witness: the theorem applied to a concrete environment answering
the PRs-opened query with `total_count` 12. -/
theorem c6_search_counts_witness :
    searchQuery "o" "r" ["is:pr", "author:" ++ "alice"] =
      "is:pr author:" ++ "alice" ++ " repo:" ++ "o" ++ "/" ++ "r" ∧
    searchQuery "o" "r" ["is:pr", "author:" ++ "alice", "is:merged"] =
      "is:pr author:" ++ "alice" ++ " is:merged repo:" ++ "o" ++ "/" ++ "r" ∧
    searchQuery "o" "r" ["is:pr", "reviewed-by:" ++ "alice"] =
      "is:pr reviewed-by:" ++ "alice" ++ " repo:" ++ "o" ++ "/" ++ "r" ∧
    fetch_prs_opened (some "t")
      ⟨fun _ => ReqOutcome.exn,
       fun q _ => if q = "is:pr author:" ++ "alice" ++ " repo:" ++ "o" ++ "/" ++ "r" then
          ReqOutcome.resp ⟨200, some (Json.obj [("total_count", Json.num 12)])⟩
        else ReqOutcome.exn⟩ "o" "r" "alice" = .ok 12 ∧
    (∀ (tok : Option String) (env' : HttpEnv),
      (∀ q k, env'.searchGets q k = ReqOutcome.exn) →
      fetch_prs_opened tok env' "o" "r" "alice" = .ok 0 ∧
      fetch_prs_merged tok env' "o" "r" "alice" = .ok 0 ∧
      fetch_reviews tok env' "o" "r" "alice" = .ok 0) ∧
    update_metrics_for_employee ⟨some "t", some "o", some "r"⟩
        ⟨fun _ => ReqOutcome.exn,
         fun q _ => if q = "is:pr author:alice repo:o/r" then
            ReqOutcome.resp ⟨200, some (Json.obj [("total_count", Json.num 12)])⟩
          else ReqOutcome.exn⟩
        ⟨1, "Alice", "alice", true⟩ =
      .ok (some ⟨1, 0, 12, 0, 0⟩) :=
  c6_search_counts "o" "r" "alice" (some "t")
    ⟨fun _ => ReqOutcome.exn,
     fun q _ => if q = "is:pr author:" ++ "alice" ++ " repo:" ++ "o" ++ "/" ++ "r" then
        ReqOutcome.resp ⟨200, some (Json.obj [("total_count", Json.num 12)])⟩
      else ReqOutcome.exn⟩ 12 rfl (by rfl)

/-- Helper: a successful `Except` bind factors through a successful
intermediate value. -/
theorem bind_eq_ok {ε α β : Type} {x : Except ε α} {f : α → Except ε β} {v : β}
    (h : (x >>= f) = .ok v) : ∃ a, x = .ok a ∧ f a = .ok v := by
  cases x with
  | error e => exact Except.noConfusion h
  | ok a => exact ⟨a, rfl, h⟩

/-- Helper: every Metric row the writer creates carries the id of the
employee it was invoked for. -/
theorem update_metric_employee_id (cfg : AppConfig) (env : HttpEnv) (e : Employee)
    (m : Metric) (h : update_metrics_for_employee cfg env e = .ok (some m)) :
    m.employee_id = e.id := by
  unfold update_metrics_for_employee at h
  by_cases hc : configOk cfg
  · simp only [hc, Bool.not_true, Bool.false_eq_true, if_false] at h
    obtain ⟨t, _, h⟩ := bind_eq_ok h
    obtain ⟨a, _, h⟩ := bind_eq_ok h
    obtain ⟨b, _, h⟩ := bind_eq_ok h
    obtain ⟨c, _, h⟩ := bind_eq_ok h
    have hm := Option.some.inj (Except.ok.inj h)
    rw [← hm]
  · have hc' : configOk cfg = false := by
      cases hcc : configOk cfg with
      | false => rfl
      | true => exact absurd hcc hc
    rw [hc'] at h
    simp only [Bool.not_false, if_true] at h
    exact Option.noConfusion (Except.ok.inj h)

/-- Helper: every row committed by the batch loop belongs to one of the
employees the loop was given. -/
theorem batchGo_created_ids (cfg : AppConfig) (envs : Nat → HttpEnv) :
    ∀ (l : List Employee) (i : Nat) (m : Metric), m ∈ (batchGo cfg envs i l).2 →
      ∃ e ∈ l, m.employee_id = e.id := by
  intro l
  induction l with
  | nil => intro i m hm; simp [batchGo] at hm
  | cons e rest ih =>
    intro i m hm
    cases hu : update_metrics_for_employee cfg (envs i) e with
    | error err => simp [batchGo, hu] at hm
    | ok o =>
      cases o with
      | none =>
        simp only [batchGo, hu] at hm
        obtain ⟨e', he', hid⟩ := ih (i + 1) m hm
        exact ⟨e', List.mem_cons_of_mem e he', hid⟩
      | some m0 =>
        simp only [batchGo, hu] at hm
        rcases List.mem_cons.mp hm with hm0 | hmr
        · exact ⟨e, List.mem_cons_self e rest,
            hm0 ▸ update_metric_employee_id cfg (envs i) e m0 hu⟩
        · obtain ⟨e', he', hid⟩ := ih (i + 1) m hmr
          exact ⟨e', List.mem_cons_of_mem e he', hid⟩

/-- Helper: when the batch loop completes without an exception, the
returned list is exactly the list of committed rows. -/
theorem batchGo_ok_eq_created (cfg : AppConfig) (envs : Nat → HttpEnv) :
    ∀ (l : List Employee) (i : Nat) (res : List Metric),
      (batchGo cfg envs i l).1 = .ok res → res = (batchGo cfg envs i l).2 := by
  intro l
  induction l with
  | nil =>
    intro i res h
    simp only [batchGo] at h ⊢
    exact (Except.ok.inj h).symm
  | cons e rest ih =>
    intro i res h
    cases hu : update_metrics_for_employee cfg (envs i) e with
    | error err =>
      rw [batchGo, hu] at h
      exact Except.noConfusion h
    | ok o =>
      cases o with
      | none =>
        simp only [batchGo, hu] at h ⊢
        exact ih (i + 1) res h
      | some m0 =>
        simp only [batchGo, hu] at h ⊢
        cases hr : (batchGo cfg envs (i + 1) rest).1 with
        | error err => rw [hr] at h; exact Except.noConfusion h
        | ok res' =>
          rw [hr] at h
          have hres := Except.ok.inj h
          rw [← hres, ih (i + 1) res' hr]

/-- C7: a batch update iterates exactly the employees whose active flag
is true; for an inactive employee (given the primary-key uniqueness of
ids) no committed row carries that employee's id, and whenever the
batch completes it returns exactly the successfully created records. -/
theorem c7_inactive_never_snapshotted (cfg : AppConfig) (envs : Nat → HttpEnv)
    (emps : List Employee) (e : Employee)
    (hids : (emps.map (fun e' => e'.id)).Nodup)
    (he : e ∈ emps) (hact : e.active = false) :
    update_metrics_for_all_employees cfg envs emps =
      batchGo cfg envs 0 (emps.filter (fun e' => e'.active)) ∧
    (∀ m ∈ (update_metrics_for_all_employees cfg envs emps).2,
      m.employee_id ≠ e.id) ∧
    (∀ res, (update_metrics_for_all_employees cfg envs emps).1 = .ok res →
      res = (update_metrics_for_all_employees cfg envs emps).2) := by
  refine ⟨rfl, ?_, ?_⟩
  · intro m hm
    obtain ⟨e', he', hid⟩ := batchGo_created_ids cfg envs
      (emps.filter (fun e' => e'.active)) 0 m hm
    rw [List.mem_filter] at he'
    intro hcontra
    have hee : e' = e := List.inj_on_of_nodup_map hids he'.1 he
      (by rw [← hid, hcontra])
    rw [hee, hact] at he'
    exact Bool.noConfusion he'.2
  · exact batchGo_ok_eq_created cfg envs (emps.filter (fun e' => e'.active)) 0

/-- C7 witness: a two-employee store in which the inactive employee gets
no row while the active one does. -/
theorem c7_inactive_never_snapshotted_witness :
    update_metrics_for_all_employees ⟨some "t", some "o", some "r"⟩
        (fun _ => ⟨fun _ => ReqOutcome.exn, fun _ _ => ReqOutcome.exn⟩)
        [⟨1, "A", "a", true⟩, ⟨2, "B", "b", false⟩] =
      batchGo ⟨some "t", some "o", some "r"⟩
        (fun _ => ⟨fun _ => ReqOutcome.exn, fun _ _ => ReqOutcome.exn⟩) 0
        ([⟨1, "A", "a", true⟩, ⟨2, "B", "b", false⟩].filter (fun e' => e'.active)) ∧
    (∀ m ∈ (update_metrics_for_all_employees ⟨some "t", some "o", some "r"⟩
        (fun _ => ⟨fun _ => ReqOutcome.exn, fun _ _ => ReqOutcome.exn⟩)
        [⟨1, "A", "a", true⟩, ⟨2, "B", "b", false⟩]).2,
      m.employee_id ≠ (⟨2, "B", "b", false⟩ : Employee).id) ∧
    (∀ res, (update_metrics_for_all_employees ⟨some "t", some "o", some "r"⟩
        (fun _ => ⟨fun _ => ReqOutcome.exn, fun _ _ => ReqOutcome.exn⟩)
        [⟨1, "A", "a", true⟩, ⟨2, "B", "b", false⟩]).1 = .ok res →
      res = (update_metrics_for_all_employees ⟨some "t", some "o", some "r"⟩
        (fun _ => ⟨fun _ => ReqOutcome.exn, fun _ _ => ReqOutcome.exn⟩)
        [⟨1, "A", "a", true⟩, ⟨2, "B", "b", false⟩]).2) :=
  c7_inactive_never_snapshotted ⟨some "t", some "o", some "r"⟩
    (fun _ => ⟨fun _ => ReqOutcome.exn, fun _ _ => ReqOutcome.exn⟩)
    [⟨1, "A", "a", true⟩, ⟨2, "B", "b", false⟩] ⟨2, "B", "b", false⟩
    (by simp) (by simp) rfl

/-- Helper: updating the employee with a given id to a username that
occurs nowhere in the store keeps the usernames duplicate-free
(id-uniqueness rules out updating two rows at once). -/
theorem nodup_usernames_update (u : String) (eid : Nat) (nm : String) (act : Bool) :
    ∀ (l : List Employee),
      (l.map (fun e => e.github_username)).Nodup →
      (l.map (fun e => e.id)).Nodup →
      (∀ e ∈ l, e.github_username ≠ u) →
      ((l.map (fun e => if e.id == eid then
          { e with name := nm, github_username := u, active := act } else e)).map
        (fun e => e.github_username)).Nodup := by
  intro l
  induction l with
  | nil => intro _ _ _; simp
  | cons e l' ih =>
    intro hn hid hu
    simp only [List.map_cons, List.nodup_cons] at hn hid
    by_cases hd : e.id == eid
    · have heid : e.id = eid := by simpa using hd
      have htail : l'.map (fun e' => if e'.id == eid then
          { e' with name := nm, github_username := u, active := act } else e') = l' := by
        have hmapid : l'.map (fun e' => if e'.id == eid then
            { e' with name := nm, github_username := u, active := act } else e') =
            l'.map id := by
          refine List.map_congr_left ?_
          intro e' he'
          have hne : e'.id ≠ eid := by
            intro hc
            exact hid.1 (heid ▸ hc ▸ List.mem_map_of_mem (fun x => x.id) he')
          simp [hne]
        simpa using hmapid
      simp only [List.map_cons, hd, if_true, htail, List.nodup_cons]
      refine ⟨?_, hn.2⟩
      intro hc
      obtain ⟨e', he', heq⟩ := List.mem_map.mp hc
      exact hu e' (List.mem_cons_of_mem e he') heq
    · simp only [List.map_cons, hd, Bool.false_eq_true, if_false, List.nodup_cons]
      refine ⟨?_, ih hn.2 hid.2 (fun e' he' => hu e' (List.mem_cons_of_mem e he'))⟩
      intro hc
      obtain ⟨e', he', heq⟩ := List.mem_map.mp hc
      obtain ⟨e'', he'', heq'⟩ := List.mem_map.mp he'
      by_cases hd' : e''.id == eid
      · simp only [hd', if_true] at heq'
        rw [← heq'] at heq
        exact hu e (List.mem_cons_self e l') heq.symm
      · simp only [hd', Bool.false_eq_true, if_false] at heq'
        rw [← heq'] at heq
        exact hn.1 (List.mem_map.mpr ⟨e'', he'', heq⟩)

/-- C8: registering a new employee under a username that is already
taken, or editing a different employee to a taken username, is rejected
with the store unchanged; and username uniqueness (no duplicate
`github_username`) is preserved by every create and edit operation. -/
theorem c8_username_uniqueness (store : List Employee) (freshId : Nat)
    (rawName rawUsername : String) (active : Bool)
    (htaken : ∃ e ∈ store, e.github_username = pyStrip rawUsername) :
    add_employee store freshId rawName rawUsername active = (store, false) ∧
    (∀ (eid : Nat) (emp : Employee),
      store.find? (fun e => e.id == eid) = some emp →
      emp.github_username ≠ pyStrip rawUsername →
      edit_employee store eid rawName rawUsername active = (store, false)) ∧
    (∀ (store' : List Employee) (fid : Nat) (rn ru : String) (act : Bool) (eid : Nat),
      (store'.map (fun e => e.github_username)).Nodup →
      (store'.map (fun e => e.id)).Nodup →
      ((add_employee store' fid rn ru act).1.map (fun e => e.github_username)).Nodup ∧
      ((edit_employee store' eid rn ru act).1.map (fun e => e.github_username)).Nodup) := by
  have hany : store.any (fun e => e.github_username == pyStrip rawUsername) = true := by
    obtain ⟨e, he, heq⟩ := htaken
    exact List.any_eq_true.mpr ⟨e, he, by simp [heq]⟩
  refine ⟨?_, ?_, ?_⟩
  · by_cases hb : (pyStrip rawName).isEmpty || (pyStrip rawUsername).isEmpty
    · simp [add_employee, hb]
    · simp [add_employee, hb, hany]
  · intro eid emp hfind hdiff
    by_cases hb : (pyStrip rawName).isEmpty || (pyStrip rawUsername).isEmpty
    · simp [edit_employee, hfind, hb]
    · have hne : (pyStrip rawUsername != emp.github_username) = true := by
        simp only [bne_iff_ne, ne_eq]
        exact fun h => hdiff h.symm
      simp [edit_employee, hfind, hb, hne, hany]
  · intro store' fid rn ru act eid hnd_user hnd_id
    constructor
    · by_cases hb : (pyStrip rn).isEmpty || (pyStrip ru).isEmpty
      · simpa [add_employee, hb] using hnd_user
      · by_cases hdup : store'.any (fun e => e.github_username == pyStrip ru)
        · simpa [add_employee, hb, hdup] using hnd_user
        · have hnotin : pyStrip ru ∉ store'.map (fun e => e.github_username) := by
            intro hc
            obtain ⟨e, he, heq⟩ := List.mem_map.mp hc
            exact hdup (List.any_eq_true.mpr ⟨e, he, by simp [heq]⟩)
          simp [add_employee, hb, hdup, List.nodup_append, hnd_user, hnotin]
    · cases hfind : store'.find? (fun e => e.id == eid) with
      | none => simpa [edit_employee, hfind] using hnd_user
      | some emp =>
        by_cases hb : (pyStrip rn).isEmpty || (pyStrip ru).isEmpty
        · simpa [edit_employee, hfind, hb] using hnd_user
        · by_cases hguard : ((pyStrip ru != emp.github_username) &&
              store'.any (fun e => e.github_username == pyStrip ru)) = true
          · simpa [edit_employee, hfind, hb, hguard] using hnd_user
          · have hempmem : emp ∈ store' := List.mem_of_find?_eq_some hfind
            have hempid : emp.id = eid := by
              have := List.find?_some hfind
              simpa using this
            have hres : (edit_employee store' eid rn ru act).1 =
                store'.map (fun e => if e.id == eid then
                  { e with name := pyStrip rn, github_username := pyStrip ru, active := act } else e) := by
              simp [edit_employee, hfind, hb, hguard]
            rw [hres]
            by_cases hsame : pyStrip ru = emp.github_username
            · have hmap : (store'.map (fun e => if e.id == eid then
                  { e with name := pyStrip rn, github_username := pyStrip ru, active := act } else e)).map (fun e => e.github_username) =
                  store'.map (fun e => e.github_username) := by
                rw [List.map_map]
                refine List.map_congr_left ?_
                intro e he
                by_cases hd : e.id == eid
                · have heq : e = emp := List.inj_on_of_nodup_map hnd_id he hempmem
                    (by rw [hempid]; simpa using hd)
                  simp [Function.comp, hd, heq, hsame, hempid]
                · simp [Function.comp, hd]
              rw [hmap]
              exact hnd_user
            · have hbne : (pyStrip ru != emp.github_username) = true := by
                simp only [bne_iff_ne, ne_eq]
                exact hsame
              have hanyf : ∀ e ∈ store', e.github_username ≠ pyStrip ru := by
                intro e he hc
                exact hguard (by
                  rw [Bool.and_eq_true]
                  exact ⟨hbne, List.any_eq_true.mpr ⟨e, he, by simp [hc]⟩⟩)
              exact nodup_usernames_update (pyStrip ru) eid (pyStrip rn) act store'
                hnd_user hnd_id hanyf

/-- C8 witness: the theorem applied to a concrete two-employee store in
which the username "a" is already taken. -/
theorem c8_username_uniqueness_witness :
    add_employee [⟨1, "A", "a", true⟩, ⟨2, "B", "b", true⟩] 3 "C" "a" true =
      ([⟨1, "A", "a", true⟩, ⟨2, "B", "b", true⟩], false) ∧
    (∀ (eid : Nat) (emp : Employee),
      [(⟨1, "A", "a", true⟩ : Employee), ⟨2, "B", "b", true⟩].find?
        (fun e => e.id == eid) = some emp →
      emp.github_username ≠ pyStrip "a" →
      edit_employee [⟨1, "A", "a", true⟩, ⟨2, "B", "b", true⟩] eid "C" "a" true =
        ([⟨1, "A", "a", true⟩, ⟨2, "B", "b", true⟩], false)) ∧
    (∀ (store' : List Employee) (fid : Nat) (rn ru : String) (act : Bool) (eid : Nat),
      (store'.map (fun e => e.github_username)).Nodup →
      (store'.map (fun e => e.id)).Nodup →
      ((add_employee store' fid rn ru act).1.map (fun e => e.github_username)).Nodup ∧
      ((edit_employee store' eid rn ru act).1.map (fun e => e.github_username)).Nodup) :=
  c8_username_uniqueness [⟨1, "A", "a", true⟩, ⟨2, "B", "b", true⟩] 3 "C" "a" true
    ⟨⟨1, "A", "a", true⟩, by simp, rfl⟩

/-- C9: deleting an existing employee removes that employee's row
together with every Metric row carrying that employee's id (the
`cascade='all, delete-orphan'` of `Employee.metrics`), leaves every
other employee's row and snapshots unchanged, and leaves no orphaned
Metric rows when the store was referentially intact. -/
theorem c9_delete_cascades (store : List Employee) (metrics : List Metric)
    (eid : Nat) (hex : store.any (fun e => e.id == eid) = true) :
    (delete_employee store metrics eid).1 = store.filter (fun e => e.id != eid) ∧
    (∀ e ∈ (delete_employee store metrics eid).1, e.id ≠ eid) ∧
    (∀ m ∈ (delete_employee store metrics eid).2.1, m.employee_id ≠ eid) ∧
    (∀ e ∈ store, e.id ≠ eid → e ∈ (delete_employee store metrics eid).1) ∧
    (∀ m ∈ metrics, m.employee_id ≠ eid →
      m ∈ (delete_employee store metrics eid).2.1) ∧
    ((∀ m ∈ metrics, ∃ e ∈ store, e.id = m.employee_id) →
      ∀ m ∈ (delete_employee store metrics eid).2.1,
        ∃ e ∈ (delete_employee store metrics eid).1, e.id = m.employee_id) := by
  simp only [delete_employee, hex, if_true]
  refine ⟨trivial, ?_, ?_, ?_, ?_, ?_⟩
  · intro e he
    have h := (List.mem_filter.mp he).2
    simpa using h
  · intro m hm
    have h := (List.mem_filter.mp hm).2
    simpa using h
  · intro e he hne
    exact List.mem_filter.mpr ⟨he, by simpa using hne⟩
  · intro m hm hne
    exact List.mem_filter.mpr ⟨hm, by simpa using hne⟩
  · intro hint m hm
    have hm' := List.mem_filter.mp hm
    obtain ⟨e, he, heid⟩ := hint m hm'.1
    have hmne : m.employee_id ≠ eid := by simpa using hm'.2
    refine ⟨e, List.mem_filter.mpr ⟨he, ?_⟩, heid⟩
    simpa [heid] using hmne

/-- C9 witness: deleting employee 1 removes its row and both of its
snapshots while employee 2 and its snapshot survive. -/
theorem c9_delete_cascades_witness :
    (delete_employee [⟨1, "A", "a", true⟩, ⟨2, "B", "b", true⟩]
        [⟨1, 5, 1, 0, 2⟩, ⟨2, 7, 0, 0, 0⟩, ⟨1, 6, 1, 1, 2⟩] 1).1 =
      [(⟨1, "A", "a", true⟩ : Employee), ⟨2, "B", "b", true⟩].filter
        (fun e => e.id != 1) ∧
    (∀ e ∈ (delete_employee [⟨1, "A", "a", true⟩, ⟨2, "B", "b", true⟩]
        [⟨1, 5, 1, 0, 2⟩, ⟨2, 7, 0, 0, 0⟩, ⟨1, 6, 1, 1, 2⟩] 1).1, e.id ≠ 1) ∧
    (∀ m ∈ (delete_employee [⟨1, "A", "a", true⟩, ⟨2, "B", "b", true⟩]
        [⟨1, 5, 1, 0, 2⟩, ⟨2, 7, 0, 0, 0⟩, ⟨1, 6, 1, 1, 2⟩] 1).2.1,
      m.employee_id ≠ 1) ∧
    (∀ e ∈ [(⟨1, "A", "a", true⟩ : Employee), ⟨2, "B", "b", true⟩], e.id ≠ 1 →
      e ∈ (delete_employee [⟨1, "A", "a", true⟩, ⟨2, "B", "b", true⟩]
        [⟨1, 5, 1, 0, 2⟩, ⟨2, 7, 0, 0, 0⟩, ⟨1, 6, 1, 1, 2⟩] 1).1) ∧
    (∀ m ∈ [(⟨1, 5, 1, 0, 2⟩ : Metric), ⟨2, 7, 0, 0, 0⟩, ⟨1, 6, 1, 1, 2⟩],
      m.employee_id ≠ 1 →
      m ∈ (delete_employee [⟨1, "A", "a", true⟩, ⟨2, "B", "b", true⟩]
        [⟨1, 5, 1, 0, 2⟩, ⟨2, 7, 0, 0, 0⟩, ⟨1, 6, 1, 1, 2⟩] 1).2.1) ∧
    ((∀ m ∈ [(⟨1, 5, 1, 0, 2⟩ : Metric), ⟨2, 7, 0, 0, 0⟩, ⟨1, 6, 1, 1, 2⟩],
      ∃ e ∈ [(⟨1, "A", "a", true⟩ : Employee), ⟨2, "B", "b", true⟩],
        e.id = m.employee_id) →
      ∀ m ∈ (delete_employee [⟨1, "A", "a", true⟩, ⟨2, "B", "b", true⟩]
        [⟨1, 5, 1, 0, 2⟩, ⟨2, 7, 0, 0, 0⟩, ⟨1, 6, 1, 1, 2⟩] 1).2.1,
        ∃ e ∈ (delete_employee [⟨1, "A", "a", true⟩, ⟨2, "B", "b", true⟩]
          [⟨1, 5, 1, 0, 2⟩, ⟨2, 7, 0, 0, 0⟩, ⟨1, 6, 1, 1, 2⟩] 1).1,
          e.id = m.employee_id) :=
  c9_delete_cascades [⟨1, "A", "a", true⟩, ⟨2, "B", "b", true⟩]
    [⟨1, 5, 1, 0, 2⟩, ⟨2, 7, 0, 0, 0⟩, ⟨1, 6, 1, 1, 2⟩] 1 rfl

/-- C10: a registration or edit whose submitted name or username is
blank after stripping whitespace is rejected with no row created or
modified, and the create/edit interface never stores an employee with a
blank name or blank username. -/
theorem c10_blank_fields_rejected (store : List Employee) (freshId eid : Nat)
    (rawName rawUsername : String) (active : Bool)
    (hblank : (pyStrip rawName).isEmpty = true ∨
      (pyStrip rawUsername).isEmpty = true) :
    add_employee store freshId rawName rawUsername active = (store, false) ∧
    edit_employee store eid rawName rawUsername active = (store, false) ∧
    (∀ (store' : List Employee) (fid eid' : Nat) (rn ru : String) (act : Bool),
      (∀ e ∈ store', e.name.isEmpty = false ∧ e.github_username.isEmpty = false) →
      (∀ e ∈ (add_employee store' fid rn ru act).1,
        e.name.isEmpty = false ∧ e.github_username.isEmpty = false) ∧
      (∀ e ∈ (edit_employee store' eid' rn ru act).1,
        e.name.isEmpty = false ∧ e.github_username.isEmpty = false)) := by
  have hb : ((pyStrip rawName).isEmpty || (pyStrip rawUsername).isEmpty) = true := by
    rcases hblank with h | h <;> simp [h]
  refine ⟨?_, ?_, ?_⟩
  · simp [add_employee, hb]
  · cases hf : store.find? (fun e => e.id == eid) with
    | none => simp [edit_employee, hf]
    | some emp => simp [edit_employee, hf, hb]
  · intro store' fid eid' rn ru act hinv
    constructor
    · intro e he
      by_cases hbb : ((pyStrip rn).isEmpty || (pyStrip ru).isEmpty) = true
      · rw [add_employee] at he
        simp only [hbb, if_true] at he
        exact hinv e he
      · have hflds : (pyStrip rn).isEmpty = false ∧ (pyStrip ru).isEmpty = false := by
          constructor
          · cases hx : (pyStrip rn).isEmpty with
            | false => rfl
            | true => exact absurd (by simp [hx]) hbb
          · cases hx : (pyStrip ru).isEmpty with
            | false => rfl
            | true => exact absurd (by simp [hx]) hbb
        by_cases hdup : store'.any (fun x => x.github_username == pyStrip ru) = true
        · rw [add_employee] at he
          simp only [hbb, hdup, if_true, Bool.false_eq_true, if_false] at he
          exact hinv e he
        · rw [add_employee] at he
          simp only [hbb, hdup, Bool.false_eq_true, if_false] at he
          rcases List.mem_append.mp he with h1 | h2
          · exact hinv e h1
          · have he' : e = ⟨fid, pyStrip rn, pyStrip ru, act⟩ := by simpa using h2
            rw [he']
            exact hflds
    · intro e he
      cases hf : store'.find? (fun x => x.id == eid') with
      | none =>
        rw [edit_employee] at he
        simp only [hf] at he
        exact hinv e he
      | some emp =>
        by_cases hbb : ((pyStrip rn).isEmpty || (pyStrip ru).isEmpty) = true
        · rw [edit_employee] at he
          simp only [hf, hbb, if_true] at he
          exact hinv e he
        · have hflds : (pyStrip rn).isEmpty = false ∧ (pyStrip ru).isEmpty = false := by
            constructor
            · cases hx : (pyStrip rn).isEmpty with
              | false => rfl
              | true => exact absurd (by simp [hx]) hbb
            · cases hx : (pyStrip ru).isEmpty with
              | false => rfl
              | true => exact absurd (by simp [hx]) hbb
          by_cases hguard : ((pyStrip ru != emp.github_username) &&
              store'.any (fun x => x.github_username == pyStrip ru)) = true
          · rw [edit_employee] at he
            simp only [hf, hbb, hguard, if_true, Bool.false_eq_true, if_false] at he
            exact hinv e he
          · rw [edit_employee] at he
            simp only [hf, hbb, hguard, Bool.false_eq_true, if_false] at he
            obtain ⟨e', he', heq⟩ := List.mem_map.mp he
            by_cases hd : (e'.id == eid') = true
            · rw [← heq]
              simp only [hd, if_true]
              exact hflds
            · rw [← heq]
              simp only [hd, Bool.false_eq_true, if_false]
              exact hinv e' he'

/-- C10 witness: a whitespace-only name is rejected by both views and
the nonblank invariant is preserved. -/
theorem c10_blank_fields_witness :
    add_employee [⟨1, "A", "a", true⟩] 2 "   " "x" true =
      ([⟨1, "A", "a", true⟩], false) ∧
    edit_employee [⟨1, "A", "a", true⟩] 1 "   " "x" true =
      ([⟨1, "A", "a", true⟩], false) ∧
    (∀ (store' : List Employee) (fid eid' : Nat) (rn ru : String) (act : Bool),
      (∀ e ∈ store', e.name.isEmpty = false ∧ e.github_username.isEmpty = false) →
      (∀ e ∈ (add_employee store' fid rn ru act).1,
        e.name.isEmpty = false ∧ e.github_username.isEmpty = false) ∧
      (∀ e ∈ (edit_employee store' eid' rn ru act).1,
        e.name.isEmpty = false ∧ e.github_username.isEmpty = false)) :=
  c10_blank_fields_rejected [⟨1, "A", "a", true⟩] 2 1 "   " "x" true (Or.inl rfl)

end EmployeeMetrics
